import Mathlib

/-!
Shallow embedding of the Agon CPU emulator's UART device model
(`src/uart.rs`) and MOS guest-ABI bridge (`src/mos.rs`), with theorems
settling the specification's claims about them.

Conventions of the embedding:
* Bytes are `Nat` (the Rust code never relies on `u8` wrap-around in the
  fragments modelled here).
* The `i32` field `transmit_cooldown` and the `i32` argument `cycles` are
  `Int`; all values reachable in the claims stay far inside the `i32`
  range, so two's-complement wrap never fires and is not modelled.
* The host callback capabilities are made explicit: `send_fn` becomes the
  `Option Nat` (byte sent this call) component of `apply_ticks`' result;
  `recv_fn` becomes a stream `List (Option Nat)` of poll answers, consumed
  one element per invocation (an exhausted stream answers `none`), and the
  functions that may poll also return the number of invocations performed.
-/

/-- `FCTL_FIFOEN` from `uart.rs`: the FIFO-enable bit of the FIFO control
register. -/
def FCTL_FIFOEN : Nat := 0x1

/-- The state of `struct Uart` from `uart.rs` (the two callback fields are
externalised, see the module comment). -/
@[ext] structure Uart where
  rx_buf : Option Nat
  transmit_cooldown : Int
  ier : Nat
  fctl : Nat
  lctl : Nat
  brg_div : Nat
  spr : Nat
  tx_fifo : List Nat
deriving Repr, DecidableEq

namespace Uart

/-- `Uart::new`: the state part of the constructor. -/
def new : Uart :=
  { rx_buf := none, transmit_cooldown := 0, ier := 0, fctl := 0, lctl := 0,
    brg_div := 2, spr := 0, tx_fifo := [] }

/-- `Uart::apply_ticks`.  Returns the new state and the byte handed to the
send capability, if any. -/
def apply_ticks (u : Uart) (cycles : Int) : Uart × Option Nat :=
  let cd := max 0 (u.transmit_cooldown - cycles)
  if cd = 0 then
    match u.tx_fifo with
    | [] => ({ u with transmit_cooldown := cd }, none)
    | val :: rest =>
        ({ u with transmit_cooldown := cd + (u.brg_div : Int) * 16 * 9,
                  tx_fifo := rest }, some val)
  else
    ({ u with transmit_cooldown := cd }, none)

/-- `Uart::send_byte`. -/
def send_byte (u : Uart) (value : Nat) : Uart :=
  if (u.tx_fifo.length < 16 ∧ u.fctl &&& FCTL_FIFOEN ≠ 0) ∨
     (u.tx_fifo = [] ∧ u.fctl &&& FCTL_FIFOEN = 0) then
    { u with tx_fifo := u.tx_fifo ++ [value] }
  else
    u

/-- `Uart::maybe_fill_rx_buf`.  `recv` is the stream of answers of the recv
capability; the result is `(returned value, new state, rest of the stream,
number of recv invocations)`. -/
def maybe_fill_rx_buf (u : Uart) (recv : List (Option Nat)) :
    Option Nat × Uart × List (Option Nat) × Nat :=
  match u.rx_buf with
  | none =>
      let r := recv.headD none
      (r, { u with rx_buf := r }, recv.tail, 1)
  | some b => (some b, u, recv, 0)

/-- `Uart::receive_byte`: `(returned byte, new state, rest of the stream,
number of recv invocations)`. -/
def receive_byte (u : Uart) (recv : List (Option Nat)) :
    Nat × Uart × List (Option Nat) × Nat :=
  let fill := maybe_fill_rx_buf u recv
  let u1 := fill.2.1
  let maybe_data := u1.rx_buf
  let u2 := { u1 with rx_buf := none }
  ((match maybe_data with
    | some data => data
    | none => 0), u2, fill.2.2.1, fill.2.2.2)

/-- `Uart::read_lsr`: `(register value, new state, rest of the stream,
number of recv invocations)`. -/
def read_lsr (u : Uart) (recv : List (Option Nat)) :
    Nat × Uart × List (Option Nat) × Nat :=
  let fill := maybe_fill_rx_buf u recv
  let u1 := fill.2.1
  (((if fill.1.isSome then 1 else 0) |||
    (if u1.tx_fifo = [] then 0x20 else 0)) |||
    (if u1.tx_fifo = [] ∧ u1.transmit_cooldown = 0 then 0x40 else 0),
   u1, fill.2.2.1, fill.2.2.2)

/-- `Uart::write_fctl`. -/
def write_fctl (u : Uart) (val : Nat) : Uart :=
  { u with fctl := val }

/-- `Uart::is_access_brg_registers`. -/
def is_access_brg_registers (u : Uart) : Bool :=
  u.lctl &&& 0x80 ≠ 0

/-- `Uart::is_rx_interrupt_enabled`. -/
def is_rx_interrupt_enabled (u : Uart) : Bool :=
  u.ier &&& 1 ≠ 0

/-- Runs `apply_ticks u 1` a number of times, collecting every byte handed
to the send capability, in order. -/
def run_ticks1 : Uart → Nat → Uart × List Nat
  | u, 0 => (u, [])
  | u, k + 1 =>
      let prev := run_ticks1 u k
      let st := apply_ticks prev.1 1
      (st.1, prev.2 ++ st.2.toList)

end Uart

/-- A concrete device state used by witnesses: fresh device with a positive
cooldown and one queued byte. -/
def uartBusy : Uart :=
  { Uart.new with transmit_cooldown := 288, tx_fifo := [7] }

/-- A concrete device state used by witnesses: fresh device whose receive
latch holds the byte `7`. -/
def uartLatch : Uart :=
  { Uart.new with rx_buf := some 7 }

/-- A concrete device state used by witnesses: non-FIFO mode with its
1-byte transmit queue full. -/
def uartFullNF : Uart :=
  { Uart.new with tx_fifo := [5] }

/-- The transmit-queue capacity determined by a FIFO-control register
value: 16 with the FIFO-enable bit set, 1 otherwise (the two cases of the
guard in `Uart::send_byte`). -/
def tx_capacity (fctl : Nat) : Nat :=
  if fctl &&& FCTL_FIFOEN ≠ 0 then 16 else 1

/-- The receive-side operations a caller can interleave on the UART. -/
inductive RxOp where
  | fill
  | lsr
  | rb
deriving Repr, DecidableEq

open Uart in
/-- Runs a sequence of receive-side operations until the first
`receive_byte` (`RxOp.rb`), returning `some (byte it returned, total recv
invocations performed up to and including it)`, or `none` when the
sequence holds no `receive_byte`. -/
def run_until_receive : Uart → List (Option Nat) → List RxOp → Option (Nat × Nat)
  | _, _, [] => none
  | u, recv, op :: ops =>
      match op with
      | RxOp.fill =>
          let st := maybe_fill_rx_buf u recv
          (run_until_receive st.2.1 st.2.2.1 ops).map (fun p => (p.1, st.2.2.2 + p.2))
      | RxOp.lsr =>
          let st := read_lsr u recv
          (run_until_receive st.2.1 st.2.2.1 ops).map (fun p => (p.1, st.2.2.2 + p.2))
      | RxOp.rb =>
          let st := receive_byte u recv
          some (st.1, st.2.2.2)

/-- A concrete operation sequence used by witnesses. -/
def rxOpsW : List RxOp := [RxOp.fill, RxOp.lsr, RxOp.rb]

/-- `struct MosMap` from `mos.rs`: addresses of the required MOS FatFS
routines. -/
structure MosMap where
  f_chdir : Nat
  _f_chdrive : Nat
  f_close : Nat
  f_closedir : Nat
  _f_getcwd : Nat
  _f_getfree : Nat
  f_getlabel : Nat
  f_gets : Nat
  f_lseek : Nat
  f_mkdir : Nat
  f_mount : Nat
  f_open : Nat
  f_opendir : Nat
  _f_printf : Nat
  f_putc : Nat
  _f_puts : Nat
  f_read : Nat
  f_readdir : Nat
  f_rename : Nat
  _f_setlabel : Nat
  f_stat : Nat
  _f_sync : Nat
  _f_truncate : Nat
  f_unlink : Nat
  f_write : Nat
deriving Repr, DecidableEq

/-- `map.get(name).ok_or("Missing MOS FS symbol in symbol map")` from
`MosMap::from_symbol_map`; the symbol table is an association list. -/
def lookup_symbol (map : List (String × Nat)) (name : String) : Except String Nat :=
  match map.lookup name with
  | some v => Except.ok v
  | none => Except.error "Missing MOS FS symbol in symbol map"

/-- `MosMap::from_symbol_map`. -/
def MosMap.from_symbol_map (map : List (String × Nat)) : Except String MosMap := do
  let v_chdir ← lookup_symbol map "_f_chdir"
  let v_chdrive ← lookup_symbol map "_f_chdrive"
  let v_close ← lookup_symbol map "_f_close"
  let v_closedir ← lookup_symbol map "_f_closedir"
  let v_getcwd ← lookup_symbol map "_f_getcwd"
  let v_getfree ← lookup_symbol map "_f_getfree"
  let v_getlabel ← lookup_symbol map "_f_getlabel"
  let v_gets ← lookup_symbol map "_f_gets"
  let v_lseek ← lookup_symbol map "_f_lseek"
  let v_mkdir ← lookup_symbol map "_f_mkdir"
  let v_mount ← lookup_symbol map "_f_mount"
  let v_open ← lookup_symbol map "_f_open"
  let v_opendir ← lookup_symbol map "_f_opendir"
  let v_printf ← lookup_symbol map "_f_printf"
  let v_putc ← lookup_symbol map "_f_putc"
  let v_puts ← lookup_symbol map "_f_puts"
  let v_read ← lookup_symbol map "_f_read"
  let v_readdir ← lookup_symbol map "_f_readdir"
  let v_rename ← lookup_symbol map "_f_rename"
  let v_setlabel ← lookup_symbol map "_f_setlabel"
  let v_stat ← lookup_symbol map "_f_stat"
  let v_sync ← lookup_symbol map "_f_sync"
  let v_truncate ← lookup_symbol map "_f_truncate"
  let v_unlink ← lookup_symbol map "_f_unlink"
  let v_write ← lookup_symbol map "_f_write"
  pure { f_chdir := v_chdir, _f_chdrive := v_chdrive, f_close := v_close,
         f_closedir := v_closedir, _f_getcwd := v_getcwd,
         _f_getfree := v_getfree, f_getlabel := v_getlabel, f_gets := v_gets,
         f_lseek := v_lseek, f_mkdir := v_mkdir, f_mount := v_mount,
         f_open := v_open, f_opendir := v_opendir, _f_printf := v_printf,
         f_putc := v_putc, _f_puts := v_puts, f_read := v_read,
         f_readdir := v_readdir, f_rename := v_rename,
         _f_setlabel := v_setlabel, f_stat := v_stat, _f_sync := v_sync,
         _f_truncate := v_truncate, f_unlink := v_unlink, f_write := v_write }

/-- The fixed set of symbol names `MosMap::from_symbol_map` requires. -/
def requiredNames : List String :=
  ["_f_chdir", "_f_chdrive", "_f_close", "_f_closedir", "_f_getcwd",
   "_f_getfree", "_f_getlabel", "_f_gets", "_f_lseek", "_f_mkdir",
   "_f_mount", "_f_open", "_f_opendir", "_f_printf", "_f_putc", "_f_puts",
   "_f_read", "_f_readdir", "_f_rename", "_f_setlabel", "_f_stat",
   "_f_sync", "_f_truncate", "_f_unlink", "_f_write"]

/-- `MOS_103_MAP` from `mos.rs`. -/
def MOS_103_MAP : MosMap :=
  { f_chdir := 0x82B2, _f_chdrive := 0x827A, f_close := 0x822B,
    f_closedir := 0x8B5B, _f_getcwd := 0x8371, _f_getfree := 0x8CE8,
    f_getlabel := 0x9816, f_gets := 0x9C91, f_lseek := 0x8610,
    f_mkdir := 0x92F6, f_mount := 0x72F7, f_open := 0x738C,
    f_opendir := 0x8A52, _f_printf := 0x9F11, f_putc := 0x9E8E,
    _f_puts := 0x9EC4, f_read := 0x785E, f_readdir := 0x8B92,
    f_rename := 0x9561, _f_setlabel := 0x99DB, f_stat := 0x8C55,
    _f_sync := 0x8115, _f_truncate := 0x8F78, f_unlink := 0x911A,
    f_write := 0x7C10 }

/-- A complete symbol table (the addresses of `MOS_103_MAP`), used by
witnesses. -/
def mosGoodTable : List (String × Nat) :=
  [("_f_chdir", 0x82B2), ("_f_chdrive", 0x827A), ("_f_close", 0x822B),
   ("_f_closedir", 0x8B5B), ("_f_getcwd", 0x8371), ("_f_getfree", 0x8CE8),
   ("_f_getlabel", 0x9816), ("_f_gets", 0x9C91), ("_f_lseek", 0x8610),
   ("_f_mkdir", 0x92F6), ("_f_mount", 0x72F7), ("_f_open", 0x738C),
   ("_f_opendir", 0x8A52), ("_f_printf", 0x9F11), ("_f_putc", 0x9E8E),
   ("_f_puts", 0x9EC4), ("_f_read", 0x785E), ("_f_readdir", 0x8B92),
   ("_f_rename", 0x9561), ("_f_setlabel", 0x99DB), ("_f_stat", 0x8C55),
   ("_f_sync", 0x8115), ("_f_truncate", 0x8F78), ("_f_unlink", 0x911A),
   ("_f_write", 0x7C10)]

/-- `mosGoodTable` with `"_f_write"` removed: one required name missing. -/
def mosBadTable : List (String × Nat) :=
  mosGoodTable.filter (fun p => p.1 ≠ "_f_write")

/-- `get_mos_path_string` from `mos.rs`.  `mem` is the collaborator's
`peek`; the extra fuel argument makes the Rust `loop` structural
(`none` as first component means the fuel ran out before a terminator was
found; the Rust loop would still be running).  The second component lists
the addresses peeked, in order. -/
def get_mos_path_string (mem : Nat → Nat) (address : Nat) :
    Nat → Option (List Nat) × List Nat
  | 0 => (none, [])
  | fuel + 1 =>
      let b := mem address
      if b = 0 ∨ b = 10 ∨ b = 13 then
        (some [], [address])
      else
        let rest := get_mos_path_string mem (address + 1) fuel
        (rest.1.map (fun s => b :: s), address :: rest.2)

/-- Guest memory holding `[72, 73, 13, 74]` from address 0 (0 elsewhere). -/
def memHiCr : Nat → Nat := fun i => [72, 73, 13, 74].getD i 0

/-- Guest memory holding `[0]` from address 0 (0 elsewhere). -/
def memNul : Nat → Nat := fun i => [0].getD i 0

open Uart in
/-- C9: `write_fctl` stores the written byte verbatim into the FIFO control
register and leaves every other component of the device state — receive
latch, transmit cooldown, IER, LCR, divisor, scratchpad, and the transmit
queue with all its queued bytes — unchanged. -/
theorem write_fctl_only_fctl (u : Uart) (val : Nat) :
    (write_fctl u val).fctl = val ∧
    (write_fctl u val).rx_buf = u.rx_buf ∧
    (write_fctl u val).transmit_cooldown = u.transmit_cooldown ∧
    (write_fctl u val).ier = u.ier ∧
    (write_fctl u val).lctl = u.lctl ∧
    (write_fctl u val).brg_div = u.brg_div ∧
    (write_fctl u val).spr = u.spr ∧
    (write_fctl u val).tx_fifo = u.tx_fifo := by
  simp [write_fctl]

open Uart in
/-- C8: a single `apply_ticks` call, whatever the cycle count, invokes the
send capability at most once: either it sends nothing and leaves the queue
untouched, or it sends exactly the head of the queue, removes only that
byte, and reloads the cooldown to `brg_div * 16 * 9`. -/
theorem apply_ticks_at_most_one_send (u : Uart) (cycles : Int) :
    ((apply_ticks u cycles).2 = none ∧
     (apply_ticks u cycles).1.tx_fifo = u.tx_fifo) ∨
    ((apply_ticks u cycles).2 = some (u.tx_fifo.headD 0) ∧
     u.tx_fifo ≠ [] ∧
     (apply_ticks u cycles).1.tx_fifo = u.tx_fifo.tail ∧
     (apply_ticks u cycles).1.transmit_cooldown = (u.brg_div : Int) * 16 * 9) := by
  unfold apply_ticks
  by_cases hcd : max 0 (u.transmit_cooldown - cycles) = 0
  · cases htx : u.tx_fifo with
    | nil => left; simp [hcd, htx]
    | cons v rest =>
        right
        simp [hcd, htx]
  · left; simp [hcd]

open Uart in
/-- C5 counterexample: `apply_ticks` with `cycles = 0` is not always a
no-op.  On a fresh device with one byte queued (cooldown is `0`), the call
sends the byte, empties the queue and reloads the cooldown. -/
theorem apply_ticks_zero_not_noop :
    (apply_ticks (send_byte Uart.new 42) 0).2 = some 42 ∧
    (apply_ticks (send_byte Uart.new 42) 0).1 ≠ send_byte Uart.new 42 := by
  decide

open Uart in
/-- C5 (amended): `apply_ticks u 0` is a no-op — state unchanged and the
send capability not invoked — whenever the cooldown is non-negative and
moreover is non-zero or the transmit queue is empty.  (When the cooldown is
already `0` and a byte is queued, the call sends it, like any tick.) -/
theorem apply_ticks_zero_noop (u : Uart)
    (h0 : 0 ≤ u.transmit_cooldown)
    (h : u.transmit_cooldown ≠ 0 ∨ u.tx_fifo = []) :
    apply_ticks u 0 = (u, none) := by
  obtain ⟨rx, cd, ier, fctl, lctl, brg, spr, tx⟩ := u
  simp only at h0 h
  have hmax : max 0 (cd - 0) = cd := by omega
  unfold apply_ticks
  simp only [hmax]
  rcases h with h | h
  · simp [h]
  · subst h
    by_cases hz : cd = 0 <;> simp [hz]

open Uart in
/-- C5 witness: the amended no-op theorem applied to a device with positive
cooldown and a queued byte. -/
theorem apply_ticks_zero_noop_witness :
    (0 : Int) ≤ uartBusy.transmit_cooldown ∧
    (uartBusy.transmit_cooldown ≠ 0 ∨ uartBusy.tx_fifo = []) ∧
    apply_ticks uartBusy 0 = (uartBusy, none) :=
  ⟨by decide, Or.inl (by decide),
   apply_ticks_zero_noop uartBusy (by decide) (Or.inl (by decide))⟩

open Uart in
/-- One `send_byte` keeps the queue within capacity and leaves the FIFO
control register unchanged. -/
theorem send_byte_step (u : Uart) (v : Nat)
    (h : u.tx_fifo.length ≤ tx_capacity u.fctl) :
    (send_byte u v).tx_fifo.length ≤ tx_capacity u.fctl ∧
    (send_byte u v).fctl = u.fctl := by
  unfold send_byte
  split
  case isTrue hc =>
    rcases hc with ⟨hlen, hbit⟩ | ⟨hemp, hbit⟩
    · refine ⟨?_, rfl⟩
      simp only [tx_capacity, hbit, ne_eq, not_false_iff, if_true,
        List.length_append, List.length_cons, List.length_nil]
      omega
    · refine ⟨?_, rfl⟩
      simp [tx_capacity, hbit, hemp]
  case isFalse hc => exact ⟨h, rfl⟩

open Uart in
/-- C2: starting from any state within capacity, no sequence of
`send_byte` calls ever pushes the transmit queue length past the current
capacity (16 with the FIFO-enable bit of FCR set, 1 otherwise); and a
`send_byte` at capacity is a silent drop — the state, queue included, is
unchanged and no error value exists (`send_byte` is total). -/
theorem send_byte_capacity (u : Uart) :
    (u.tx_fifo.length ≤ tx_capacity u.fctl →
      ∀ bs : List Nat,
        (bs.foldl send_byte u).tx_fifo.length ≤ tx_capacity u.fctl) ∧
    (tx_capacity u.fctl ≤ u.tx_fifo.length → ∀ v, send_byte u v = u) := by
  constructor
  · intro h bs
    induction bs generalizing u with
    | nil => exact h
    | cons v bs ih =>
        have hs := send_byte_step u v h
        have hrec := ih (send_byte u v) (by rw [hs.2]; exact hs.1)
        rw [hs.2] at hrec
        simpa using hrec
  · intro h v
    unfold send_byte
    split
    case isTrue hc =>
      exfalso
      rcases hc with ⟨hlen, hbit⟩ | ⟨hemp, hbit⟩
      · simp [tx_capacity, hbit] at h
        omega
      · simp [tx_capacity, hbit, hemp] at h
    case isFalse hc => rfl

open Uart in
/-- C2 witness: the capacity theorem applied to a full non-FIFO device. -/
theorem send_byte_capacity_witness :
    uartFullNF.tx_fifo.length ≤ tx_capacity uartFullNF.fctl ∧
    tx_capacity uartFullNF.fctl ≤ uartFullNF.tx_fifo.length ∧
    ([9, 10, 11].foldl send_byte uartFullNF).tx_fifo.length ≤
      tx_capacity uartFullNF.fctl ∧
    send_byte uartFullNF 9 = uartFullNF :=
  ⟨by decide, by decide,
   (send_byte_capacity uartFullNF).1 (by decide) [9, 10, 11],
   (send_byte_capacity uartFullNF).2 (by decide) 9⟩

open Uart in
/-- C6: two back-to-back `receive_byte` calls with a byte in the latch and
no host data arriving deliver the byte once, then 0, and invoke the recv
capability at most once over the pair. -/
theorem receive_byte_twice (u : Uart) (recv : List (Option Nat)) (b : Nat)
    (hb : u.rx_buf = some b) (hr : ∀ r ∈ recv, r = none) :
    (receive_byte u recv).1 = b ∧
    (receive_byte (receive_byte u recv).2.1 (receive_byte u recv).2.2.1).1 = 0 ∧
    (receive_byte u recv).2.2.2 +
      (receive_byte (receive_byte u recv).2.1 (receive_byte u recv).2.2.1).2.2.2 ≤ 1 := by
  have h1 : receive_byte u recv = (b, { u with rx_buf := none }, recv, 0) := by
    simp [receive_byte, maybe_fill_rx_buf, hb]
  have hhead : recv.head?.getD none = none := by
    cases recv with
    | nil => rfl
    | cons r rs =>
        simpa using hr r (List.mem_cons_self r rs)
  have h2 : receive_byte { u with rx_buf := none } recv =
      (0, { u with rx_buf := none }, recv.tail, 1) := by
    simp [receive_byte, maybe_fill_rx_buf, hhead]
  rw [h1]
  simp [h2]

open Uart in
/-- C6 witness: the two-reads theorem applied to a device whose latch
holds 7 and an empty host stream. -/
theorem receive_byte_twice_witness :
    uartLatch.rx_buf = some 7 ∧
    (receive_byte uartLatch []).1 = 7 ∧
    (receive_byte (receive_byte uartLatch []).2.1 (receive_byte uartLatch []).2.2.1).1 = 0 ∧
    (receive_byte uartLatch []).2.2.2 +
      (receive_byte (receive_byte uartLatch []).2.1 (receive_byte uartLatch []).2.2.1).2.2.2 ≤ 1 := by
  refine ⟨rfl, ?_⟩
  exact receive_byte_twice uartLatch [] 7 rfl (by simp)

/-- Helper: a value of the shape the line-status register produces carries
bits only at positions 0, 5 and 6. -/
theorem testBit_lsr_values (v i : Nat)
    (hv : v = 0 ∨ v = 1 ∨ v = 32 ∨ v = 33 ∨ v = 64 ∨ v = 65 ∨ v = 96 ∨ v = 97)
    (h : v.testBit i = true) : i = 0 ∨ i = 5 ∨ i = 6 := by
  have h7 : i < 7 := by
    by_contra hge
    push_neg at hge
    have hvlt : v < 2 ^ i := by
      have h128 : (2 : Nat) ^ 7 ≤ 2 ^ i := Nat.pow_le_pow_right (by norm_num) hge
      have hv7 : v < 2 ^ 7 := by
        rcases hv with rfl|rfl|rfl|rfl|rfl|rfl|rfl|rfl <;> norm_num
      omega
    rw [Nat.testBit_eq_false_of_lt hvlt] at h
    exact Bool.false_ne_true h
  interval_cases i <;> rcases hv with rfl|rfl|rfl|rfl|rfl|rfl|rfl|rfl <;>
    revert h <;> decide

open Uart in
/-- The value `read_lsr` returns, written with the three status conditions
expressed over the pre-state. -/
theorem read_lsr_value (u : Uart) (recv : List (Option Nat)) :
    (read_lsr u recv).1 =
      (if u.rx_buf.isSome ∨ (recv.headD none).isSome then 1 else 0) |||
      (if u.tx_fifo = [] then 32 else 0) |||
      (if u.tx_fifo = [] ∧ u.transmit_cooldown = 0 then 64 else 0) := by
  unfold read_lsr maybe_fill_rx_buf
  cases hrx : u.rx_buf with
  | some b => simp [hrx]
  | none => simp [hrx]

/-- Helper: bit content of a three-condition mask of the shape `read_lsr`
builds. -/
theorem lsr_mask_bits (p q r : Prop) [Decidable p] [Decidable q] [Decidable r] :
    ((((if p then 1 else 0) ||| (if q then 32 else 0)) ||| (if r then 64 else 0)).testBit 0 ↔ p) ∧
    ((((if p then 1 else 0) ||| (if q then 32 else 0)) ||| (if r then 64 else 0)).testBit 5 ↔ q) ∧
    ((((if p then 1 else 0) ||| (if q then 32 else 0)) ||| (if r then 64 else 0)).testBit 6 ↔ r) ∧
    (∀ i, ((((if p then 1 else 0) ||| (if q then 32 else 0)) ||| (if r then 64 else 0)).testBit i) = true →
      i = 0 ∨ i = 5 ∨ i = 6) := by
  by_cases hp : p <;> by_cases hq : q <;> by_cases hr : r <;>
    simp only [hp, hq, hr, if_true, if_false, iff_true, iff_false] <;>
    refine ⟨?_, ?_, ?_, fun i hi => testBit_lsr_values _ i (by decide) hi⟩ <;>
    decide

open Uart in
/-- C7: `read_lsr` returns exactly the bitmask with bit 0x01 set iff the
receive latch holds a byte or the lazily polled recv capability yields a
byte, bit 0x20 set iff the transmit queue is empty, bit 0x40 set iff the
transmit queue is empty and the cooldown is zero, and every other bit
zero. -/
theorem read_lsr_bits (u : Uart) (recv : List (Option Nat)) :
    ((read_lsr u recv).1.testBit 0 ↔ (u.rx_buf.isSome ∨ (recv.headD none).isSome)) ∧
    ((read_lsr u recv).1.testBit 5 ↔ u.tx_fifo = []) ∧
    ((read_lsr u recv).1.testBit 6 ↔ (u.tx_fifo = [] ∧ u.transmit_cooldown = 0)) ∧
    (∀ i, (read_lsr u recv).1.testBit i = true → i = 0 ∨ i = 5 ∨ i = 6) := by
  rw [read_lsr_value]
  exact lsr_mask_bits _ _ _

open Uart in
/-- C10: a populated receive latch is never overwritten or lost except by
`receive_byte` delivering it.  First part: across any sequence of
`maybe_fill_rx_buf`, `read_lsr` and `receive_byte` calls, a byte sitting
in the latch is exactly what the first `receive_byte` returns, and the
recv capability is not invoked at all up to and including that call (it
is only polled when the latch is empty).  Second part: a byte the recv
capability delivers to an empty latch is stored there, not discarded. -/
theorem rx_latch_safety :
    (∀ ops : List RxOp, ∀ u : Uart, ∀ recv : List (Option Nat), ∀ v m b : Nat,
      u.rx_buf = some b → run_until_receive u recv ops = some (v, m) →
      v = b ∧ m = 0) ∧
    (∀ u : Uart, ∀ recv : List (Option Nat), ∀ c : Nat,
      u.rx_buf = none → recv.headD none = some c →
      (maybe_fill_rx_buf u recv).2.1.rx_buf = some c) := by
  constructor
  · intro ops
    induction ops with
    | nil =>
        intro u recv v m b hb hrun
        simp [run_until_receive] at hrun
    | cons op ops ih =>
        intro u recv v m b hb hrun
        cases op with
        | fill =>
            have hst : (maybe_fill_rx_buf u recv).2 = (u, recv, 0) := by
              simp [maybe_fill_rx_buf, hb]
            simp only [run_until_receive, hst] at hrun
            obtain ⟨⟨pv, pm⟩, hp, hpe⟩ := Option.map_eq_some'.mp hrun
            simp only at hpe
            obtain ⟨hv, hm⟩ := Prod.mk.injEq _ _ _ _ ▸ hpe
            obtain ⟨h1, h2⟩ := ih u recv pv pm b hb hp
            exact ⟨hv ▸ h1, by omega⟩
        | lsr =>
            have hst : (read_lsr u recv).2 = (u, recv, 0) := by
              simp [read_lsr, maybe_fill_rx_buf, hb]
            simp only [run_until_receive, hst] at hrun
            obtain ⟨⟨pv, pm⟩, hp, hpe⟩ := Option.map_eq_some'.mp hrun
            simp only at hpe
            obtain ⟨hv, hm⟩ := Prod.mk.injEq _ _ _ _ ▸ hpe
            obtain ⟨h1, h2⟩ := ih u recv pv pm b hb hp
            exact ⟨hv ▸ h1, by omega⟩
        | rb =>
            have hst : receive_byte u recv = (b, { u with rx_buf := none }, recv, 0) := by
              simp [receive_byte, maybe_fill_rx_buf, hb]
            simp only [run_until_receive, hst] at hrun
            injection hrun with h
            injection h with hv hm
            exact ⟨hv.symm, hm.symm⟩
  · intro u recv c h0 hc
    simp [maybe_fill_rx_buf, h0]
    simpa using hc

open Uart in
/-- C10 witness: the latch-safety theorem applied to a device whose latch
holds 7 (fill, status read, then receive) and to an empty-latch fill that
receives the byte 5. -/
theorem rx_latch_safety_witness :
    uartLatch.rx_buf = some 7 ∧
    run_until_receive uartLatch [] rxOpsW = some (7, 0) ∧
    (7 = 7 ∧ 0 = 0) ∧
    Uart.new.rx_buf = none ∧
    ([some 5] : List (Option Nat)).headD none = some 5 ∧
    (maybe_fill_rx_buf Uart.new [some 5]).2.1.rx_buf = some 5 :=
  ⟨rfl, by decide, rx_latch_safety.1 rxOpsW uartLatch [] 7 0 7 rfl (by decide),
   rfl, rfl, rx_latch_safety.2 Uart.new [some 5] 5 rfl rfl⟩

/-- Helper: prepending the base address to a shifted address range. -/
theorem range_map_add_shift (a : Nat) : ∀ n : Nat,
    a :: (List.range n).map (fun i => a + 1 + i) =
      (List.range (n + 1)).map (fun i => a + i)
  | 0 => by simp [List.range_succ]
  | n + 1 => by
      rw [List.range_succ, List.map_append, List.range_succ (n + 1),
        List.map_append, ← List.cons_append, range_map_add_shift a n]
      simp only [List.map_cons, List.map_nil, List.append_cancel_left_eq,
        List.cons.injEq, and_true]
      omega

/-- Helper: characterization of a successful `get_mos_path_string` run:
result bytes, terminator, and the exact addresses peeked. -/
theorem get_mos_path_string_sound (mem : Nat → Nat) :
    ∀ fuel address : Nat, ∀ s reads : List Nat,
      get_mos_path_string mem address fuel = (some s, reads) →
      (∀ i, i < s.length →
        s.getD i 0 = mem (address + i) ∧
        ¬(mem (address + i) = 0 ∨ mem (address + i) = 10 ∨
          mem (address + i) = 13)) ∧
      (mem (address + s.length) = 0 ∨ mem (address + s.length) = 10 ∨
        mem (address + s.length) = 13) ∧
      reads = (List.range (s.length + 1)).map (fun i => address + i) := by
  intro fuel
  induction fuel with
  | zero =>
      intro address s reads h
      simp [get_mos_path_string] at h
  | succ fuel ih =>
      intro address s reads h
      rw [get_mos_path_string] at h
      by_cases ht : mem address = 0 ∨ mem address = 10 ∨ mem address = 13
      · rw [if_pos ht] at h
        injection h with h1 h2
        injection h1 with h1
        subst h1
        subst h2
        refine ⟨?_, ?_, ?_⟩
        · intro i hi
          simp at hi
        · simpa using ht
        · simp [List.range_succ]
      · rw [if_neg ht] at h
        rcases hre : get_mos_path_string mem (address + 1) fuel with ⟨r1, r2⟩
        rw [hre] at h
        injection h with h1 h2
        obtain ⟨s', hs', hcons⟩ := Option.map_eq_some'.mp h1
        subst hcons
        subst hs'
        obtain ⟨ih1, ih2, ih3⟩ := ih (address + 1) s' r2 hre
        subst h2
        refine ⟨?_, ?_, ?_⟩
        · intro i hi
          cases i with
          | zero => exact ⟨by simp, by simpa using ht⟩
          | succ j =>
              have hj : j < s'.length := by simpa using hi
              have harith : address + (j + 1) = address + 1 + j := by omega
              simp only [List.getD_cons_succ]
              rw [harith]
              exact ih1 j hj
        · have harith : address + (mem address :: s').length =
              address + 1 + s'.length := by
            simp
            omega
          rw [harith]
          exact ih2
        · rw [ih3]
          simp only [List.length_cons]
          exact range_map_add_shift address (s'.length + 1)

/-- C4: `get_mos_path_string` reads guest bytes one at a time from
`address` on and stops at the first byte equal to 0, 10 or 13, which is
excluded from the result; the addresses peeked are exactly
`address .. address + result length` — the terminator is the last byte
read and nothing past it is read.  Concretely, over memory
`[72, 73, 13, 74]` it returns `[72, 73]` having peeked only addresses
0, 1, 2 (the byte 74 is never read), and over `[0]` it returns `[]`. -/
theorem get_mos_path_string_spec :
    (∀ (mem : Nat → Nat) (fuel address : Nat) (s reads : List Nat),
      get_mos_path_string mem address fuel = (some s, reads) →
      (∀ i, i < s.length →
        s.getD i 0 = mem (address + i) ∧
        ¬(mem (address + i) = 0 ∨ mem (address + i) = 10 ∨
          mem (address + i) = 13)) ∧
      (mem (address + s.length) = 0 ∨ mem (address + s.length) = 10 ∨
        mem (address + s.length) = 13) ∧
      reads = (List.range (s.length + 1)).map (fun i => address + i)) ∧
    get_mos_path_string memHiCr 0 4 = (some [72, 73], [0, 1, 2]) ∧
    get_mos_path_string memNul 0 1 = (some [], [0]) := by
  refine ⟨?_, by decide, by decide⟩
  intro mem fuel address s reads h
  exact get_mos_path_string_sound mem fuel address s reads h

/-- C4 witness: the characterization applied to the concrete memory
`[72, 73, 13, 74]`. -/
theorem get_mos_path_string_spec_witness :
    get_mos_path_string memHiCr 0 4 = (some [72, 73], [0, 1, 2]) ∧
    [0, 1, 2] = (List.range ([72, 73].length + 1)).map (fun i => 0 + i) :=
  ⟨by decide,
   (get_mos_path_string_spec.1 memHiCr 4 0 [72, 73] [0, 1, 2] (by decide)).2.2⟩

open Uart in
/-- Helper: full characterization of ticking a device whose queue holds
exactly one byte `b` and whose cooldown is `c`: nothing is sent strictly
before tick `max c 1`; from tick `max c 1` on, exactly `[b]` has been sent,
the queue is empty, and the cooldown counts down from `brg_div * 16 * 9`. -/
theorem run_ticks1_single (u : Uart) (b : Nat) (c : Nat)
    (htx : u.tx_fifo = [b]) (hcd : u.transmit_cooldown = (c : Int)) :
    ∀ k : Nat,
      (k < max c 1 →
        run_ticks1 u k =
          ({ u with transmit_cooldown := ((c - k : Nat) : Int) }, [])) ∧
      (max c 1 ≤ k →
        run_ticks1 u k =
          ({ u with tx_fifo := [],
                    transmit_cooldown :=
                      max 0 ((u.brg_div : Int) * 16 * 9 -
                        ((k - max c 1 : Nat) : Int)) }, [b])) := by
  obtain ⟨rx, cd0, ier0, fctl0, lctl0, brg0, spr0, tx0⟩ := u
  simp only at htx hcd
  subst htx
  subst hcd
  intro k
  induction k with
  | zero =>
      constructor
      · intro _
        simp [run_ticks1]
      · intro hle
        exfalso
        omega
  | succ k ih =>
      constructor
      · intro h
        have hk : k < max c 1 := by omega
        have hc2 : k + 1 < c := by omega
        rw [run_ticks1, ih.1 hk]
        have hne : ¬ (max 0 (((c - k : Nat) : Int) - 1) = 0) := by omega
        simp [apply_ticks, hne]
        omega
      · intro h
        by_cases hk : max c 1 ≤ k
        · rw [run_ticks1, ih.2 hk]
          simp [apply_ticks]
          omega
        · have hk1 : k < max c 1 := by omega
          have hT : max c 1 = k + 1 := by omega
          rw [run_ticks1, ih.1 hk1]
          have hz : max 0 ((((c - k : Nat)) : Int) - 1) = 0 := by omega
          simp [apply_ticks, hz, hT]

open Uart in
/-- Helper: while the transmit queue is non-empty, the 0x20 line-status
bit reads 0. -/
theorem lsr_bit20_nonempty (u : Uart) (h : ¬ u.tx_fifo = []) :
    ((read_lsr u []).1 &&& 0x20) = 0 := by
  rw [read_lsr_value]
  by_cases hP : u.rx_buf.isSome <;> simp [h, hP]

open Uart in
/-- Helper: once the transmit queue is empty, the 0x20 line-status bit
reads 1. -/
theorem lsr_bit20_empty (u : Uart) (h : u.tx_fifo = []) :
    ((read_lsr u []).1 &&& 0x20) = 0x20 := by
  rw [read_lsr_value]
  by_cases hP : u.rx_buf.isSome <;> by_cases hq : u.transmit_cooldown = 0 <;>
    simp [h, hP, hq] <;> decide

open Uart in
/-- C1 (amended): with `b` alone at the head of the queue and cooldown
`c ≥ 0`, repeated `apply_ticks 1` calls invoke the send capability with
`b` exactly once, at tick `max c 1` — which is `≥ brg_div * 16 * 9` ticks
after `b` became head exactly when `c` is at least that post-send reset
value, e.g. when `b` became head at the instant a previous byte was sent;
an idle transmitter (`c = 0`) instead sends at the very first tick.  The
0x20 line-status bit is 0 strictly before the send and 1 at and after it,
and the cooldown is reset to `brg_div * 16 * 9` by the send. -/
theorem uart_send_timing (u : Uart) (b : Nat) (c : Nat)
    (htx : u.tx_fifo = [b]) (hcd : u.transmit_cooldown = (c : Int)) :
    (∀ k, k < max c 1 → (run_ticks1 u k).2 = [] ∧
      ((read_lsr (run_ticks1 u k).1 []).1 &&& 0x20) = 0) ∧
    (∀ k, max c 1 ≤ k → (run_ticks1 u k).2 = [b] ∧
      ((read_lsr (run_ticks1 u k).1 []).1 &&& 0x20) = 0x20) ∧
    (run_ticks1 u (max c 1)).1.transmit_cooldown = (u.brg_div : Int) * 16 * 9 := by
  refine ⟨?_, ?_, ?_⟩
  · intro k hk
    rw [(run_ticks1_single u b c htx hcd k).1 hk]
    refine ⟨rfl, ?_⟩
    apply lsr_bit20_nonempty
    simp [htx]
  · intro k hk
    rw [(run_ticks1_single u b c htx hcd k).2 hk]
    exact ⟨rfl, lsr_bit20_empty _ rfl⟩
  · rw [(run_ticks1_single u b c htx hcd (max c 1)).2 (le_refl _)]
    simp

open Uart in
/-- C1 witness: the timing theorem applied to a device with cooldown 288
(= 2 × 16 × 9, the post-send reset value for the default divisor) and the
byte 7 at the head of the queue. -/
theorem uart_send_timing_witness :
    uartBusy.tx_fifo = [7] ∧
    uartBusy.transmit_cooldown = ((288 : Nat) : Int) ∧
    (run_ticks1 uartBusy (max 288 1)).1.transmit_cooldown =
      (uartBusy.brg_div : Int) * 16 * 9 :=
  ⟨rfl, by decide, (uart_send_timing uartBusy 7 288 rfl (by decide)).2.2⟩

open Uart in
/-- C1 counterexample: the claimed lower bound `divisor * 16 * 9` on the
cycle count of the send does not hold.  On a fresh device (cooldown 0,
divisor 2) the byte 42 becomes the head of the queue the moment it is
enqueued, and a single `apply_ticks 1` — one elapsed cycle — already
invokes the send capability with it, although `1 < 2 * 16 * 9 = 288`. -/
theorem uart_send_timing_counterexample :
    (run_ticks1 (send_byte Uart.new 42) 1).2 = [42] ∧
    (1 : Nat) < (send_byte Uart.new 42).brg_div * 16 * 9 := by
  decide


/-- Helper: `Except.bind` on a success. -/
theorem except_bind_ok {A B : Type} (a : A) (f : A → Except String B) :
    ((Except.ok a : Except String A) >>= f) = f a := rfl

/-- Helper: `Except.bind` on an error short-circuits. -/
theorem except_bind_err {A B : Type} (e : String) (f : A → Except String B) :
    ((Except.error e : Except String A) >>= f) = Except.error e := rfl

/-- Helper: `pure` for `Except` is `Except.ok`. -/
theorem except_pure_eq {A : Type} (a : A) :
    (pure a : Except String A) = Except.ok a := rfl

set_option maxHeartbeats 2000000 in
/-- Helper: `MosMap.from_symbol_map` either fails with the one fixed
missing-symbol message (and then some required name is absent from the
table), or succeeds with a map whose every field is exactly the table's
address for the corresponding required name. -/
theorem from_symbol_map_cases (map : List (String × Nat)) :
    (MosMap.from_symbol_map map =
        Except.error "Missing MOS FS symbol in symbol map" ∧
      ∃ n ∈ requiredNames, map.lookup n = none) ∨
    (∃ m : MosMap, MosMap.from_symbol_map map = Except.ok m ∧
      map.lookup "_f_chdir" = some m.f_chdir ∧
      map.lookup "_f_chdrive" = some m._f_chdrive ∧
      map.lookup "_f_close" = some m.f_close ∧
      map.lookup "_f_closedir" = some m.f_closedir ∧
      map.lookup "_f_getcwd" = some m._f_getcwd ∧
      map.lookup "_f_getfree" = some m._f_getfree ∧
      map.lookup "_f_getlabel" = some m.f_getlabel ∧
      map.lookup "_f_gets" = some m.f_gets ∧
      map.lookup "_f_lseek" = some m.f_lseek ∧
      map.lookup "_f_mkdir" = some m.f_mkdir ∧
      map.lookup "_f_mount" = some m.f_mount ∧
      map.lookup "_f_open" = some m.f_open ∧
      map.lookup "_f_opendir" = some m.f_opendir ∧
      map.lookup "_f_printf" = some m._f_printf ∧
      map.lookup "_f_putc" = some m.f_putc ∧
      map.lookup "_f_puts" = some m._f_puts ∧
      map.lookup "_f_read" = some m.f_read ∧
      map.lookup "_f_readdir" = some m.f_readdir ∧
      map.lookup "_f_rename" = some m.f_rename ∧
      map.lookup "_f_setlabel" = some m._f_setlabel ∧
      map.lookup "_f_stat" = some m.f_stat ∧
      map.lookup "_f_sync" = some m._f_sync ∧
      map.lookup "_f_truncate" = some m._f_truncate ∧
      map.lookup "_f_unlink" = some m.f_unlink ∧
      map.lookup "_f_write" = some m.f_write) := by
  rcases h1 : map.lookup "_f_chdir" with _ | v1
  · exact Or.inl ⟨by simp only [MosMap.from_symbol_map, lookup_symbol, except_bind_ok, except_bind_err, except_pure_eq, h1],
      "_f_chdir", by decide, h1⟩
  rcases h2 : map.lookup "_f_chdrive" with _ | v2
  · exact Or.inl ⟨by simp only [MosMap.from_symbol_map, lookup_symbol, except_bind_ok, except_bind_err, except_pure_eq, h1, h2],
      "_f_chdrive", by decide, h2⟩
  rcases h3 : map.lookup "_f_close" with _ | v3
  · exact Or.inl ⟨by simp only [MosMap.from_symbol_map, lookup_symbol, except_bind_ok, except_bind_err, except_pure_eq, h1, h2, h3],
      "_f_close", by decide, h3⟩
  rcases h4 : map.lookup "_f_closedir" with _ | v4
  · exact Or.inl ⟨by simp only [MosMap.from_symbol_map, lookup_symbol, except_bind_ok, except_bind_err, except_pure_eq, h1, h2, h3, h4],
      "_f_closedir", by decide, h4⟩
  rcases h5 : map.lookup "_f_getcwd" with _ | v5
  · exact Or.inl ⟨by simp only [MosMap.from_symbol_map, lookup_symbol, except_bind_ok, except_bind_err, except_pure_eq, h1, h2, h3, h4, h5],
      "_f_getcwd", by decide, h5⟩
  rcases h6 : map.lookup "_f_getfree" with _ | v6
  · exact Or.inl ⟨by simp only [MosMap.from_symbol_map, lookup_symbol, except_bind_ok, except_bind_err, except_pure_eq, h1, h2, h3, h4, h5, h6],
      "_f_getfree", by decide, h6⟩
  rcases h7 : map.lookup "_f_getlabel" with _ | v7
  · exact Or.inl ⟨by simp only [MosMap.from_symbol_map, lookup_symbol, except_bind_ok, except_bind_err, except_pure_eq, h1, h2, h3, h4, h5, h6, h7],
      "_f_getlabel", by decide, h7⟩
  rcases h8 : map.lookup "_f_gets" with _ | v8
  · exact Or.inl ⟨by simp only [MosMap.from_symbol_map, lookup_symbol, except_bind_ok, except_bind_err, except_pure_eq, h1, h2, h3, h4, h5, h6, h7, h8],
      "_f_gets", by decide, h8⟩
  rcases h9 : map.lookup "_f_lseek" with _ | v9
  · exact Or.inl ⟨by simp only [MosMap.from_symbol_map, lookup_symbol, except_bind_ok, except_bind_err, except_pure_eq, h1, h2, h3, h4, h5, h6, h7, h8, h9],
      "_f_lseek", by decide, h9⟩
  rcases h10 : map.lookup "_f_mkdir" with _ | v10
  · exact Or.inl ⟨by simp only [MosMap.from_symbol_map, lookup_symbol, except_bind_ok, except_bind_err, except_pure_eq, h1, h2, h3, h4, h5, h6, h7, h8, h9, h10],
      "_f_mkdir", by decide, h10⟩
  rcases h11 : map.lookup "_f_mount" with _ | v11
  · exact Or.inl ⟨by simp only [MosMap.from_symbol_map, lookup_symbol, except_bind_ok, except_bind_err, except_pure_eq, h1, h2, h3, h4, h5, h6, h7, h8, h9, h10, h11],
      "_f_mount", by decide, h11⟩
  rcases h12 : map.lookup "_f_open" with _ | v12
  · exact Or.inl ⟨by simp only [MosMap.from_symbol_map, lookup_symbol, except_bind_ok, except_bind_err, except_pure_eq, h1, h2, h3, h4, h5, h6, h7, h8, h9, h10, h11, h12],
      "_f_open", by decide, h12⟩
  rcases h13 : map.lookup "_f_opendir" with _ | v13
  · exact Or.inl ⟨by simp only [MosMap.from_symbol_map, lookup_symbol, except_bind_ok, except_bind_err, except_pure_eq, h1, h2, h3, h4, h5, h6, h7, h8, h9, h10, h11, h12, h13],
      "_f_opendir", by decide, h13⟩
  rcases h14 : map.lookup "_f_printf" with _ | v14
  · exact Or.inl ⟨by simp only [MosMap.from_symbol_map, lookup_symbol, except_bind_ok, except_bind_err, except_pure_eq, h1, h2, h3, h4, h5, h6, h7, h8, h9, h10, h11, h12, h13, h14],
      "_f_printf", by decide, h14⟩
  rcases h15 : map.lookup "_f_putc" with _ | v15
  · exact Or.inl ⟨by simp only [MosMap.from_symbol_map, lookup_symbol, except_bind_ok, except_bind_err, except_pure_eq, h1, h2, h3, h4, h5, h6, h7, h8, h9, h10, h11, h12, h13, h14, h15],
      "_f_putc", by decide, h15⟩
  rcases h16 : map.lookup "_f_puts" with _ | v16
  · exact Or.inl ⟨by simp only [MosMap.from_symbol_map, lookup_symbol, except_bind_ok, except_bind_err, except_pure_eq, h1, h2, h3, h4, h5, h6, h7, h8, h9, h10, h11, h12, h13, h14, h15, h16],
      "_f_puts", by decide, h16⟩
  rcases h17 : map.lookup "_f_read" with _ | v17
  · exact Or.inl ⟨by simp only [MosMap.from_symbol_map, lookup_symbol, except_bind_ok, except_bind_err, except_pure_eq, h1, h2, h3, h4, h5, h6, h7, h8, h9, h10, h11, h12, h13, h14, h15, h16, h17],
      "_f_read", by decide, h17⟩
  rcases h18 : map.lookup "_f_readdir" with _ | v18
  · exact Or.inl ⟨by simp only [MosMap.from_symbol_map, lookup_symbol, except_bind_ok, except_bind_err, except_pure_eq, h1, h2, h3, h4, h5, h6, h7, h8, h9, h10, h11, h12, h13, h14, h15, h16, h17, h18],
      "_f_readdir", by decide, h18⟩
  rcases h19 : map.lookup "_f_rename" with _ | v19
  · exact Or.inl ⟨by simp only [MosMap.from_symbol_map, lookup_symbol, except_bind_ok, except_bind_err, except_pure_eq, h1, h2, h3, h4, h5, h6, h7, h8, h9, h10, h11, h12, h13, h14, h15, h16, h17, h18, h19],
      "_f_rename", by decide, h19⟩
  rcases h20 : map.lookup "_f_setlabel" with _ | v20
  · exact Or.inl ⟨by simp only [MosMap.from_symbol_map, lookup_symbol, except_bind_ok, except_bind_err, except_pure_eq, h1, h2, h3, h4, h5, h6, h7, h8, h9, h10, h11, h12, h13, h14, h15, h16, h17, h18, h19, h20],
      "_f_setlabel", by decide, h20⟩
  rcases h21 : map.lookup "_f_stat" with _ | v21
  · exact Or.inl ⟨by simp only [MosMap.from_symbol_map, lookup_symbol, except_bind_ok, except_bind_err, except_pure_eq, h1, h2, h3, h4, h5, h6, h7, h8, h9, h10, h11, h12, h13, h14, h15, h16, h17, h18, h19, h20, h21],
      "_f_stat", by decide, h21⟩
  rcases h22 : map.lookup "_f_sync" with _ | v22
  · exact Or.inl ⟨by simp only [MosMap.from_symbol_map, lookup_symbol, except_bind_ok, except_bind_err, except_pure_eq, h1, h2, h3, h4, h5, h6, h7, h8, h9, h10, h11, h12, h13, h14, h15, h16, h17, h18, h19, h20, h21, h22],
      "_f_sync", by decide, h22⟩
  rcases h23 : map.lookup "_f_truncate" with _ | v23
  · exact Or.inl ⟨by simp only [MosMap.from_symbol_map, lookup_symbol, except_bind_ok, except_bind_err, except_pure_eq, h1, h2, h3, h4, h5, h6, h7, h8, h9, h10, h11, h12, h13, h14, h15, h16, h17, h18, h19, h20, h21, h22, h23],
      "_f_truncate", by decide, h23⟩
  rcases h24 : map.lookup "_f_unlink" with _ | v24
  · exact Or.inl ⟨by simp only [MosMap.from_symbol_map, lookup_symbol, except_bind_ok, except_bind_err, except_pure_eq, h1, h2, h3, h4, h5, h6, h7, h8, h9, h10, h11, h12, h13, h14, h15, h16, h17, h18, h19, h20, h21, h22, h23, h24],
      "_f_unlink", by decide, h24⟩
  rcases h25 : map.lookup "_f_write" with _ | v25
  · exact Or.inl ⟨by simp only [MosMap.from_symbol_map, lookup_symbol, except_bind_ok, except_bind_err, except_pure_eq, h1, h2, h3, h4, h5, h6, h7, h8, h9, h10, h11, h12, h13, h14, h15, h16, h17, h18, h19, h20, h21, h22, h23, h24, h25],
      "_f_write", by decide, h25⟩
  refine Or.inr ⟨⟨v1, v2, v3, v4, v5, v6, v7, v8, v9, v10, v11, v12, v13, v14, v15, v16, v17, v18, v19, v20, v21, v22, v23, v24, v25⟩, ?_, rfl, rfl, rfl, rfl, rfl, rfl, rfl, rfl, rfl, rfl, rfl, rfl, rfl, rfl, rfl, rfl, rfl, rfl, rfl, rfl, rfl, rfl, rfl, rfl, rfl⟩
  simp only [MosMap.from_symbol_map, lookup_symbol, except_bind_ok, except_bind_err, except_pure_eq, h1, h2, h3, h4, h5, h6, h7, h8, h9, h10, h11, h12, h13, h14, h15, h16, h17, h18, h19, h20, h21, h22, h23, h24, h25]

/-- C3: `MosMap.from_symbol_map` over a table missing at least one
required routine name fails atomically with the single generic
"Missing MOS FS symbol in symbol map" error — the error names the kind of
failure, never the specific missing name, and no partial map is produced;
over a table containing all required names it succeeds with a map in which
every required name's address equals the input table's. -/
theorem from_symbol_map_spec (map : List (String × Nat)) :
    ((∃ n ∈ requiredNames, map.lookup n = none) →
      MosMap.from_symbol_map map =
        Except.error "Missing MOS FS symbol in symbol map") ∧
    ((∀ n ∈ requiredNames, (map.lookup n).isSome) →
      ∃ m : MosMap, MosMap.from_symbol_map map = Except.ok m ∧
        map.lookup "_f_chdir" = some m.f_chdir ∧
        map.lookup "_f_chdrive" = some m._f_chdrive ∧
        map.lookup "_f_close" = some m.f_close ∧
        map.lookup "_f_closedir" = some m.f_closedir ∧
        map.lookup "_f_getcwd" = some m._f_getcwd ∧
        map.lookup "_f_getfree" = some m._f_getfree ∧
        map.lookup "_f_getlabel" = some m.f_getlabel ∧
        map.lookup "_f_gets" = some m.f_gets ∧
        map.lookup "_f_lseek" = some m.f_lseek ∧
        map.lookup "_f_mkdir" = some m.f_mkdir ∧
        map.lookup "_f_mount" = some m.f_mount ∧
        map.lookup "_f_open" = some m.f_open ∧
        map.lookup "_f_opendir" = some m.f_opendir ∧
        map.lookup "_f_printf" = some m._f_printf ∧
        map.lookup "_f_putc" = some m.f_putc ∧
        map.lookup "_f_puts" = some m._f_puts ∧
        map.lookup "_f_read" = some m.f_read ∧
        map.lookup "_f_readdir" = some m.f_readdir ∧
        map.lookup "_f_rename" = some m.f_rename ∧
        map.lookup "_f_setlabel" = some m._f_setlabel ∧
        map.lookup "_f_stat" = some m.f_stat ∧
        map.lookup "_f_sync" = some m._f_sync ∧
        map.lookup "_f_truncate" = some m._f_truncate ∧
        map.lookup "_f_unlink" = some m.f_unlink ∧
        map.lookup "_f_write" = some m.f_write) := by
  rcases from_symbol_map_cases map with ⟨herr, hmiss⟩ | ⟨m, hok, hf⟩
  · constructor
    · intro _
      exact herr
    · intro hall
      exfalso
      obtain ⟨n, hn, hnone⟩ := hmiss
      have hsome := hall n hn
      rw [hnone] at hsome
      simp at hsome
  · obtain ⟨hf1, hf2, hf3, hf4, hf5, hf6, hf7, hf8, hf9, hf10, hf11, hf12, hf13, hf14, hf15, hf16, hf17, hf18, hf19, hf20, hf21, hf22, hf23, hf24, hf25⟩ := hf
    constructor
    · intro hmiss
      exfalso
      obtain ⟨n, hn, hnone⟩ := hmiss
      simp [requiredNames] at hn
      rcases hn with rfl|rfl|rfl|rfl|rfl|rfl|rfl|rfl|rfl|rfl|rfl|rfl|rfl|rfl|rfl|rfl|rfl|rfl|rfl|rfl|rfl|rfl|rfl|rfl|rfl <;> simp_all
    · intro _
      exact ⟨m, hok, hf1, hf2, hf3, hf4, hf5, hf6, hf7, hf8, hf9, hf10, hf11, hf12, hf13, hf14, hf15, hf16, hf17, hf18, hf19, hf20, hf21, hf22, hf23, hf24, hf25⟩

/-- C3 witness: resolution applied to a table missing `"_f_write"` (it
fails with the generic message) and to the complete table of the 1.03
firmware addresses (it succeeds). -/
theorem from_symbol_map_spec_witness :
    (∃ n ∈ requiredNames, mosBadTable.lookup n = none) ∧
    MosMap.from_symbol_map mosBadTable =
      Except.error "Missing MOS FS symbol in symbol map" ∧
    (∀ n ∈ requiredNames, (mosGoodTable.lookup n).isSome) ∧
    ∃ m : MosMap, MosMap.from_symbol_map mosGoodTable = Except.ok m := by
  refine ⟨⟨"_f_write", by decide, by decide⟩,
    (from_symbol_map_spec mosBadTable).1 ⟨"_f_write", by decide, by decide⟩,
    by decide, ?_⟩
  obtain ⟨m, hm, -⟩ := (from_symbol_map_spec mosGoodTable).2 (by decide)
  exact ⟨m, hm⟩
